import Mathlib

/-!
Shallow embedding of the onchaintestkit core: the local node orchestrator
(src/node/LocalNodeManager.ts), the deterministic-deployment proxy helper
(src/contracts/ProxyDeployer.ts) and the deployment engine
(src/contracts/SmartContractManager.ts), together with theorems settling
the specification claims about them.

Machine-level conventions of the embedding:
- byte strings are `List Nat` (each entry a byte value);
- TypeScript `undefined`-able fields are `Option`; JavaScript truthiness of
  a number is `n ≠ 0`, of a string is `s ≠ ""`, of an array field modelled
  as a list is `l ≠ []`;
- asynchronous effectful methods become pure functions that also return the
  list of externally visible actions they performed, in order;
- the external chain process (anvil), the keccak hash, and the ABI encoder
  are inputs of the model (oracles/parameters), since they live outside the
  repository.
-/

namespace OTK

/-- Byte strings (calldata, bytecode, addresses, salts). -/
abbrev Bytes := List Nat

/-! ## LocalNodeManager: configuration and anvil argument construction -/

/-- Models `NodeConfig` from src/node/types.ts (the fields consumed by
`LocalNodeManager`); `none` models an absent/`undefined` field. -/
structure NodeConfig where
  port : Option Nat := none
  portRange : Option (Nat × Nat) := none
  chainId : Option Nat := none
  mnemonic : Option String := none
  forkUrl : Option String := none
  forkBlockNumber : Option Nat := none
  blockTime : Option Nat := none
  noMining : Option Bool := none
  hardfork : Option String := none
deriving DecidableEq, Repr

/-- JavaScript truthiness filter for an optional number: `0` is falsy. -/
def truthyNat : Option Nat → Option Nat
  | some n => if n = 0 then none else some n
  | none => none

/-- JavaScript truthiness filter for an optional string: `""` is falsy. -/
def truthyStr : Option String → Option String
  | some s => if s = "" then none else some s
  | none => none

/-- The `LocalNodeManager` constructor: spreads the user config over the
defaults `chainId := 84532`, `blockTime := 0`,
`portRange := config.portRange ?? [10000, 20000]`
(src/node/LocalNodeManager.ts, constructor). A field present in the input
overrides the default; an absent field takes it. -/
def mkNodeConfig (config : NodeConfig) : NodeConfig :=
  { config with
    chainId := some (config.chainId.getD 84532)
    blockTime := some (config.blockTime.getD 0)
    portRange := some (config.portRange.getD (10000, 20000)) }

/-- The `--port` segment of `buildAnvilArgs`: pushed only when
`this.allocatedPort` is truthy. -/
def portArgs (allocatedPort : Option Nat) : List String :=
  match truthyNat allocatedPort with
  | some p => ["--port", toString p]
  | none => []

/-- The `--chain-id` segment of `buildAnvilArgs`. -/
def chainIdArgs (config : NodeConfig) : List String :=
  match truthyNat config.chainId with
  | some c => ["--chain-id", toString c]
  | none => []

/-- The `--block-time` segment of `buildAnvilArgs`: pushed only when
`this.config.blockTime` is truthy, so a zero block time emits nothing. -/
def blockTimeArgs (config : NodeConfig) : List String :=
  match truthyNat config.blockTime with
  | some b => ["--block-time", toString b]
  | none => []

/-- The `--fork-url` segment of `buildAnvilArgs`. -/
def forkUrlArgs (config : NodeConfig) : List String :=
  match truthyStr config.forkUrl with
  | some u => ["--fork-url", u]
  | none => []

/-- The `--fork-block-number` segment of `buildAnvilArgs`. -/
def forkBlockArgs (config : NodeConfig) : List String :=
  match truthyNat config.forkBlockNumber with
  | some b => ["--fork-block-number", toString b]
  | none => []

/-- The `--no-mining` segment of `buildAnvilArgs`. -/
def noMiningArgs (config : NodeConfig) : List String :=
  match config.noMining with
  | some true => ["--no-mining"]
  | _ => []

/-- The `--hardfork` segment of `buildAnvilArgs`. -/
def hardforkArgs (config : NodeConfig) : List String :=
  match truthyStr config.hardfork with
  | some h => ["--hardfork", h]
  | none => []

/-- The `--mnemonic` segment of `buildAnvilArgs`. -/
def mnemonicArgs (config : NodeConfig) : List String :=
  match truthyStr config.mnemonic with
  | some m => ["--mnemonic", m]
  | none => []

/-- Models `buildAnvilArgs` (src/node/LocalNodeManager.ts lines 442-459): the
anvil command line derived from the allocated port and the stored config,
with each flag guarded by the truthiness of its field, in source order. -/
def buildAnvilArgs (allocatedPort : Option Nat) (config : NodeConfig) : List String :=
  portArgs allocatedPort ++ chainIdArgs config ++ blockTimeArgs config ++
    forkUrlArgs config ++ forkBlockArgs config ++ noMiningArgs config ++
    hardforkArgs config ++ mnemonicArgs config

/-! ## LocalNodeManager: port allocation

`isPortAvailable` performs a real bind/listen/close probe on the host; the
host's answer is the oracle `avail : Nat → Bool`. `Math.random()` draws are
the oracle `rand : Nat → Nat` giving, for attempt `i`, the already-floored
value `Math.floor(Math.random() * range)` (so intended to lie in
`[0, range)`). -/

/-- The random-probing loop of `findAvailablePort`
(src/node/LocalNodeManager.ts lines 119-129): up to `fuel` further
attempts, the next one having index `attempt`; candidate
`minPort + rand attempt` is probed and returned when available. -/
def randomSearch (avail : Nat → Bool) (rand : Nat → Nat) (minPort : Nat) :
    Nat → Nat → Option Nat
  | _, 0 => none
  | attempt, fuel + 1 =>
    if avail (minPort + rand attempt) then some (minPort + rand attempt)
    else randomSearch avail rand minPort (attempt + 1) fuel

/-- The fallback phase of `findAvailablePort`: 20 random candidates, then
the terminal "no available ports" error naming the range and the attempt
budget. -/
def fallbackSearch (avail : Nat → Bool) (rand : Nat → Nat)
    (minPort maxPort : Nat) : Except String Nat :=
  match randomSearch avail rand minPort 0 20 with
  | some p => Except.ok p
  | none =>
    Except.error ("No available ports found in range " ++ toString minPort ++
      "-" ++ toString maxPort ++ " after 20 attempts")

/-- Models `findAvailablePort` (src/node/LocalNodeManager.ts lines 102-134):
probe the explicitly requested port first when it is set (and truthy),
then fall back to 20 random candidates from the configured range. -/
def findAvailablePort (avail : Nat → Bool) (rand : Nat → Nat)
    (config : NodeConfig) : Except String Nat :=
  match truthyNat config.port with
  | some p =>
    if avail p then Except.ok p
    else fallbackSearch avail rand (config.portRange.getD (10000, 20000)).1
      (config.portRange.getD (10000, 20000)).2
  | none =>
    fallbackSearch avail rand (config.portRange.getD (10000, 20000)).1
      (config.portRange.getD (10000, 20000)).2

/-! ## LocalNodeManager: start retry loop -/

/-- Externally visible steps of `start()`: one spawn attempt (by its
zero-based index) and one inter-attempt sleep (milliseconds). -/
inductive StartAction where
  | attempt (k : Nat)
  | delay (ms : Nat)
deriving DecidableEq, Repr

/-- The retry loop of `start()` (src/node/LocalNodeManager.ts lines
145-212). `fails k` tells whether attempt `k` (port allocation, spawn,
readiness wait as a whole) throws. `retries` is the count of failures so
far, `fuel = 5 - retries` the remaining loop capacity; a failed attempt
increments `retries` and sleeps 1000 ms when `retries < 5` still holds. -/
def startLoop (fails : Nat → Bool) : Nat → Nat → List StartAction × Bool
  | _, 0 => ([], false)
  | retries, fuel + 1 =>
    if fails retries then
      (StartAction.attempt retries ::
        ((if retries + 1 < 5 then [StartAction.delay 1000] else []) ++
          (startLoop fails (retries + 1) fuel).1),
       (startLoop fails (retries + 1) fuel).2)
    else ([StartAction.attempt retries], true)

/-- Models `start()` (src/node/LocalNodeManager.ts lines 140-219): fails
immediately when a process handle already exists, otherwise runs the retry
loop (`MAX_PORT_ALLOCATION_RETRIES = 5`) and reports a terminal error
naming the attempt count when the loop never succeeded. -/
def start (fails : Nat → Bool) (processRunning : Bool) :
    List StartAction × Except String Unit :=
  if processRunning then ([], Except.error "Node is already running")
  else
    let run := startLoop fails 0 5
    (run.1,
      if run.2 then Except.ok ()
      else Except.error "Failed to start Anvil node after 5 attempts")

/-- The sleep durations occurring in a `start()` trace, in order. -/
def delaysOf (tr : List StartAction) : List Nat :=
  tr.filterMap fun a =>
    match a with
    | StartAction.delay ms => some ms
    | _ => none

/-- The attempt indices occurring in a `start()` trace, in order. -/
def attemptsOf (tr : List StartAction) : List Nat :=
  tr.filterMap fun a =>
    match a with
    | StartAction.attempt k => some k
    | _ => none

/-! ## LocalNodeManager: JSON-RPC control surface -/

/-- A JSON-RPC parameter value as serialized by the helper methods. -/
inductive Param where
  | str (s : String)
  | num (n : Nat)
  | flag (b : Bool)
  | forkObj (blockNumberHex : String)
deriving DecidableEq, Repr

/-- The `0x`-prefixed lowercase hexadecimal rendering of a number, as produced
by JavaScript `n.toString(16)` with the `0x` prefix prepended. -/
def natToHex (n : Nat) : String :=
  "0x" ++ String.mk (Nat.toDigits 16 n)

/-- One externally visible RPC round trip: method name and parameters. -/
inductive RAct where
  | rpc (method : String) (params : List Param)
deriving DecidableEq, Repr

/-- The part of the `LocalNodeManager` instance state the RPC helpers
read: the provider handle, `none` until `start()` succeeded and after
`cleanup()`. The payload is the bound port. -/
structure NodeState where
  provider : Option Nat
deriving DecidableEq, Repr

/-- Models `send` (src/node/LocalNodeManager.ts lines 501-508): fails with
"Node not started" when no provider is bound; otherwise performs exactly
one RPC round trip. -/
def send (st : NodeState) (method : String) (params : List Param) :
    List RAct × Except String Unit :=
  match st.provider with
  | none => ([], Except.error "Node not started")
  | some _ => ([RAct.rpc method params], Except.ok ())

/-- Models `snapshot()`. -/
def snapshot (st : NodeState) : List RAct × Except String Unit :=
  send st "anvil_snapshot" []

/-- Models `revert(snapshotId)`. -/
def revert (st : NodeState) (snapshotId : String) : List RAct × Except String Unit :=
  send st "anvil_revert" [Param.str snapshotId]

/-- Models `reset(forkBlock?)`. -/
def reset (st : NodeState) (forkBlock : Option Nat) : List RAct × Except String Unit :=
  send st "anvil_reset"
    (match forkBlock with
     | some b => [Param.forkObj (natToHex b)]
     | none => [])

/-- Models `mine(blocks = 1)`. -/
def mine (st : NodeState) (blocks : Nat) : List RAct × Except String Unit :=
  send st "anvil_mine" [Param.num blocks]

/-- Models `setAutomine(enabled)`. -/
def setAutomine (st : NodeState) (enabled : Bool) : List RAct × Except String Unit :=
  send st "anvil_setAutomine" [Param.flag enabled]

/-- Models `setNextBlockTimestamp(timestamp)`. -/
def setNextBlockTimestamp (st : NodeState) (timestamp : Nat) :
    List RAct × Except String Unit :=
  send st "anvil_setNextBlockTimestamp" [Param.num timestamp]

/-- Models `increaseTime(seconds)`. -/
def increaseTime (st : NodeState) (seconds : Nat) : List RAct × Except String Unit :=
  send st "anvil_increaseTime" [Param.num seconds]

/-- Models `setTime(timestamp)`. -/
def setTime (st : NodeState) (timestamp : Nat) : List RAct × Except String Unit :=
  send st "anvil_setTime" [Param.num timestamp]

/-- Models `setBalance(address, balance)`: the wei amount crosses the RPC
boundary as a hex string. -/
def setBalance (st : NodeState) (address : String) (balance : Nat) :
    List RAct × Except String Unit :=
  send st "anvil_setBalance" [Param.str address, Param.str (natToHex balance)]

/-- Models `setNonce(address, nonce)`. -/
def setNonce (st : NodeState) (address : String) (nonce : Nat) :
    List RAct × Except String Unit :=
  send st "anvil_setNonce" [Param.str address, Param.num nonce]

/-- Models `setCode(address, code)`. -/
def setCode (st : NodeState) (address : String) (code : String) :
    List RAct × Except String Unit :=
  send st "anvil_setCode" [Param.str address, Param.str code]

/-- Models `setStorageAt(address, slot, value)`. -/
def setStorageAt (st : NodeState) (address : String) (slot : String)
    (value : String) : List RAct × Except String Unit :=
  send st "anvil_setStorageAt" [Param.str address, Param.str slot, Param.str value]

/-- Models `setNextBlockBaseFeePerGas(fee)`. -/
def setNextBlockBaseFeePerGas (st : NodeState) (fee : Nat) :
    List RAct × Except String Unit :=
  send st "anvil_setNextBlockBaseFeePerGas" [Param.str (natToHex fee)]

/-- Models `setMinGasPrice(price)`. -/
def setMinGasPrice (st : NodeState) (price : Nat) : List RAct × Except String Unit :=
  send st "anvil_setMinGasPrice" [Param.str (natToHex price)]

/-- Models `setChainId(chainId)`. -/
def setChainId (st : NodeState) (chainId : Nat) : List RAct × Except String Unit :=
  send st "anvil_setChainId" [Param.num chainId]

/-- Models `impersonateAccount(address)`. -/
def impersonateAccount (st : NodeState) (address : String) :
    List RAct × Except String Unit :=
  send st "anvil_impersonateAccount" [Param.str address]

/-- Models `stopImpersonatingAccount(address)`. -/
def stopImpersonatingAccount (st : NodeState) (address : String) :
    List RAct × Except String Unit :=
  send st "anvil_stopImpersonatingAccount" [Param.str address]

/-! ## Chain model and ProxyDeployer -/

/-- The observable chain state the contracts layer reads: the account code
mapping. (Balances/storage are never read by this layer.) -/
structure Chain where
  code : Bytes → Bytes

/-- Externally visible actions of the contracts layer, in order: RPC
reads, the raw proxy-deployment transaction, the CREATE2 deployment
transaction through the proxy, receipt waits, and contract writes. -/
inductive EAct where
  | rpc (method : String)
  | getCode (addr : Bytes)
  | sendRawTx
  | sendTx (toAddr : Bytes) (data : Bytes)
  | waitReceipt
  | writeTx (target : Bytes) (functionName : String)
deriving DecidableEq, Repr

/-- Models `PROXY_ADDRESS = 0x4e59b44847b379578588920ca78fbf26c0b4956c`
(src/contracts/ProxyDeployer.ts line 11), as 20 bytes. -/
def PROXY_ADDRESS : Bytes :=
  [78, 89, 180, 72, 71, 179, 121, 87, 133, 136, 146, 12,
   167, 143, 191, 38, 192, 180, 149, 108]

/-- The proxy's runtime bytecode: the 0x45 bytes the init code of
`PROXY_DEPLOYMENT_TX` (src/contracts/ProxyDeployer.ts line 9) copies and
returns (offset 0x0e, length 0x45 of the transaction's data field). -/
def proxyRuntime : Bytes :=
  [127, 255, 255, 255, 255, 255, 255, 255, 255, 255, 255, 255, 255, 255,
   255, 255, 255, 255, 255, 255, 255, 255, 255, 255, 255, 255, 255, 255,
   255, 255, 255, 255, 224, 54, 1, 96, 0, 129, 96, 32, 130, 55, 128, 53,
   130, 130, 52, 245, 128, 21, 21, 96, 57, 87, 129, 130, 253, 91, 128,
   130, 82, 80, 80, 80, 96, 20, 96, 12, 243]

/-- Models `isProxyDeployed` (src/contracts/ProxyDeployer.ts lines 31-40): one
`getBytecode` read; deployed means code present and not `"0x"` (here:
nonempty). -/
def isProxyDeployed (c : Chain) : List EAct × Bool :=
  ([EAct.getCode PROXY_ADDRESS], !(c.code PROXY_ADDRESS).isEmpty)

/-- Modelled from the spec: the chain-side effect of the pre-signed raw
proxy deployment transaction, which this repository only submits — per
§4.4/§6 executing it places the proxy contract's runtime code at the
fixed well-known proxy address. -/
def applyProxyDeploymentTx (c : Chain) : Chain :=
  { code := fun a => if a = PROXY_ADDRESS then proxyRuntime else c.code a }

/-- Models `ensureProxyDeployed` (src/contracts/ProxyDeployer.ts lines 45-72):
no-op when the proxy code is already present, otherwise submit the raw
deployment transaction and wait for inclusion. -/
def ensureProxyDeployed (c : Chain) : List EAct × Chain :=
  let probe := isProxyDeployed c
  if probe.2 then (probe.1, c)
  else (probe.1 ++ [EAct.sendRawTx, EAct.waitReceipt], applyProxyDeploymentTx c)

/-- Iterates `ensureProxyDeployed` `n` times, chain component only. -/
def iterEnsure : Nat → Chain → Chain
  | 0, c => c
  | n + 1, c => iterEnsure n (ensureProxyDeployed c).2

/-! ## SmartContractManager -/

/-- Models `ContractArtifact` (src/contracts/types.ts): the ABI (kept opaque as a
string) and the deployment bytecode. -/
structure Artifact where
  abi : String
  bytecode : Bytes
deriving DecidableEq, Repr

/-- Models `ContractDeployment` (src/contracts/types.ts): constructor arguments
are opaque values, here numbers. -/
structure Deployment where
  name : String
  args : List Nat
  salt : Bytes
  deployer : Bytes
deriving DecidableEq, Repr

/-- Models `ContractCall` (src/contracts/types.ts). -/
structure Call where
  target : Bytes
  functionName : String
  args : List Nat
  account : Bytes
  value : Option Nat
deriving DecidableEq, Repr

/-- Models `SetupConfig` (src/contracts/types.ts): both lists optional. -/
structure SetupConfig where
  deployments : Option (List Deployment)
  calls : Option (List Call)
deriving DecidableEq, Repr

/-- The mutable state of a `SmartContractManager`: whether `initialize`
has completed (i.e. the viem clients and the proxy deployer exist) and the
deployed-contract registry (a `Map` from address to ABI, modelled as an
association list with `Map.set` semantics). -/
structure ManagerState where
  isInit : Bool
  deployedContracts : List (Bytes × String)
deriving DecidableEq, Repr

/-- Models `Map.set`: overwrite the entry when the key is present, append
otherwise. -/
def mapSet (m : List (Bytes × String)) (k : Bytes) (v : String) :
    List (Bytes × String) :=
  if m.any (fun e => e.1 == k) then
    m.map (fun e => if e.1 == k then (k, v) else e)
  else m ++ [(k, v)]

/-- Models `Map.get`. -/
def mapGet (m : List (Bytes × String)) (k : Bytes) : Option String :=
  (m.find? (fun e => e.1 == k)).map (fun e => e.2)

/-- The external inputs of the contracts layer: the keccak-256 hash, the
ABI constructor-argument encoder (the suffix `encodeDeployData` appends to
the bytecode), the compiled-artifact filesystem under
`projectRoot/out/Name.sol/Name.json`, the EVM's execution of init code to
runtime code (what ends up stored at a CREATE2 address), and the node's
`eth_chainId` answer. All live outside this repository. -/
structure Env where
  keccak : Bytes → Bytes
  encodeCtorArgs : List Nat → Bytes
  artifacts : String → Option Artifact
  execInit : Bytes → Bytes
  fetchChainId : Nat
  projectRoot : String

/-- viem `encodeDeployData`: the deployment data is the bytecode followed
by the ABI-encoded constructor arguments. -/
def encodeDeployData (env : Env) (bytecode : Bytes) (args : List Nat) : Bytes :=
  bytecode ++ env.encodeCtorArgs args

/-- viem `getContractAddress` with `opcode: "CREATE2"`: the low-order 20
bytes of `keccak256(0xff ++ from ++ salt ++ keccak256(initCode))`. -/
def getContractAddress (env : Env) (fromAddr salt initCode : Bytes) : Bytes :=
  (env.keccak ([255] ++ fromAddr ++ salt ++ env.keccak initCode)).drop 12

/-- Models `predictContractAddress` (src/contracts/SmartContractManager.ts lines
238-259): the CREATE2 address with the proxy as deployer over
`encodeDeployData` of the bytecode and constructor args. (The source
passes an empty ABI here; the encoded data is the same bytecode-plus-args
concatenation used for the actual deployment.) -/
def predictContractAddress (env : Env) (salt bytecode : Bytes)
    (args : List Nat) : Bytes :=
  getContractAddress env PROXY_ADDRESS salt (encodeDeployData env bytecode args)

/-- The artifact path `loadArtifact` expects
(src/contracts/SmartContractManager.ts lines 264-283). -/
def artifactPath (env : Env) (contractName : String) : String :=
  env.projectRoot ++ "/out/" ++ contractName ++ ".sol/" ++ contractName ++ ".json"

/-- Models `loadArtifact`: reads the artifact from disk, failing with the
expected path when the file is missing. -/
def loadArtifact (env : Env) (contractName : String) : Except String Artifact :=
  match env.artifacts contractName with
  | some a => Except.ok a
  | none =>
    Except.error ("Artifact not found: " ++ artifactPath env contractName ++
      ". Make sure to compile contracts with forge build.")

/-- Modelled from the spec: the chain-side effect of the CREATE2
transaction sent to the proxy with payload `salt ++ initCode` — per §4.5
the proxy performs the low-level CREATE2, placing the runtime code
produced by executing `initCode` at the CREATE2 address of
`(PROXY_ADDRESS, salt, initCode)`. -/
def applyCreate2Tx (env : Env) (c : Chain) (salt initCode : Bytes) : Chain :=
  { code := fun a =>
      if a = getContractAddress env PROXY_ADDRESS salt initCode then
        env.execInit initCode
      else c.code a }

/-- Models `deployContract` (src/contracts/SmartContractManager.ts lines
109-168): guard on initialization, load the artifact, predict the
address, read the code there; when code exists, record the ABI and return
without a transaction, otherwise send `salt ++ deploymentData` to the
proxy, wait for the receipt, and record the ABI. -/
def deployContract (env : Env) (ms : ManagerState) (c : Chain)
    (d : Deployment) : List EAct × Except String (Bytes × ManagerState × Chain) :=
  if !ms.isInit then
    ([], Except.error "SmartContractManager not initialized. Call initialize() first.")
  else
    match loadArtifact env d.name with
    | Except.error e => ([], Except.error e)
    | Except.ok artifact =>
      let predicted := predictContractAddress env d.salt artifact.bytecode d.args
      let existing := c.code predicted
      if existing ≠ [] then
        ([EAct.getCode predicted],
         Except.ok (predicted,
           { ms with deployedContracts :=
               mapSet ms.deployedContracts predicted artifact.abi }, c))
      else
        let deploymentData := encodeDeployData env artifact.bytecode d.args
        let create2Data := d.salt ++ deploymentData
        ([EAct.getCode predicted, EAct.sendTx PROXY_ADDRESS create2Data,
          EAct.waitReceipt],
         Except.ok (predicted,
           { ms with deployedContracts :=
               mapSet ms.deployedContracts predicted artifact.abi },
           applyCreate2Tx env c d.salt deploymentData))

/-- Models `executeCall` (src/contracts/SmartContractManager.ts lines 173-205):
guard on initialization, look the target up in the registry (failing when
absent), then issue the contract write. -/
def executeCall (env : Env) (ms : ManagerState) (cl : Call) :
    List EAct × Except String Unit :=
  if !ms.isInit then
    ([], Except.error "SmartContractManager not initialized. Call initialize() first.")
  else
    match mapGet ms.deployedContracts cl.target with
    | none =>
      ([], Except.error ("ABI not found for contract at " ++ toString cl.target ++
        ". Deploy the contract first or provide the ABI."))
    | some _ => ([EAct.writeTx cl.target cl.functionName], Except.ok ())

/-- Whether a deployment fails the `validateConfig` field check
(JavaScript falsiness of `name`, `salt` or `deployer`). -/
def deploymentInvalid (d : Deployment) : Bool :=
  d.name == "" || d.salt == [] || d.deployer == []

/-- Whether a call fails the `validateConfig` field check. -/
def callInvalid (cl : Call) : Bool :=
  cl.target == [] || cl.functionName == "" || cl.account == []

/-- Models `validateConfig` (src/contracts/SmartContractManager.ts lines
288-310): reject a config with neither list, then reject the first
deployment or call with a missing field. -/
def validateConfig (config : SetupConfig) : Except String Unit :=
  if config.deployments = none ∧ config.calls = none then
    Except.error "Setup config must contain at least deployments or calls"
  else if (config.deployments.getD []).any deploymentInvalid then
    Except.error "Each deployment must have name, salt, and deployer"
  else if (config.calls.getD []).any callInvalid then
    Except.error "Each call must have target, functionName, and account"
  else Except.ok ()

/-- Models `initialize` (src/contracts/SmartContractManager.ts lines 46-86):
fetch `eth_chainId` over RPC, build the viem clients, then ensure the
deterministic-deployment proxy exists (possibly submitting its raw
deployment transaction). -/
def initManager (env : Env) (ms : ManagerState) (c : Chain) :
    List EAct × ManagerState × Chain :=
  let ensured := ensureProxyDeployed c
  (EAct.rpc "eth_chainId" :: ensured.1, { ms with isInit := true }, ensured.2)

/-- The deployments loop of `setContractState`: each `deployContract`
awaited before the next starts, threading manager and chain state. -/
def runDeployments (env : Env) :
    ManagerState → Chain → List Deployment →
    List EAct × Except String (ManagerState × Chain)
  | ms, c, [] => ([], Except.ok (ms, c))
  | ms, c, d :: ds =>
    let step := deployContract env ms c d
    match step.2 with
    | Except.error e => (step.1, Except.error e)
    | Except.ok (_, ms', c') =>
      let rest := runDeployments env ms' c' ds
      (step.1 ++ rest.1, rest.2)

/-- The calls loop of `setContractState`: each `executeCall` awaited
before the next starts. -/
def runCalls (env : Env) : ManagerState → List Call → List EAct × Except String Unit
  | _, [] => ([], Except.ok ())
  | ms, cl :: cls =>
    let step := executeCall env ms cl
    match step.2 with
    | Except.error e => (step.1, Except.error e)
    | Except.ok _ =>
      let rest := runCalls env ms cls
      (step.1 ++ rest.1, rest.2)

/-- Models `setContractState` (src/contracts/SmartContractManager.ts lines
210-233): initialize first when the clients are absent, then validate,
then run all deployments, then all calls. -/
def setContractState (env : Env) (ms : ManagerState) (c : Chain)
    (config : SetupConfig) : List EAct × Except String (ManagerState × Chain) :=
  let pre := if ms.isInit then ([], ms, c) else initManager env ms c
  let tr0 := pre.1
  let ms1 := pre.2.1
  let c1 := pre.2.2
  match validateConfig config with
  | Except.error e => (tr0, Except.error e)
  | Except.ok _ =>
    let ds := runDeployments env ms1 c1 (config.deployments.getD [])
    match ds.2 with
    | Except.error e => (tr0 ++ ds.1, Except.error e)
    | Except.ok (ms2, c2) =>
      let cs := runCalls env ms2 (config.calls.getD [])
      match cs.2 with
      | Except.error e => (tr0 ++ ds.1 ++ cs.1, Except.error e)
      | Except.ok _ => (tr0 ++ ds.1 ++ cs.1, Except.ok (ms2, c2))

/-- Whether an action is a batch-level transaction: a CREATE2 deployment
transaction or a contract write. -/
def isBatchTx : EAct → Bool
  | EAct.sendTx _ _ => true
  | EAct.writeTx _ _ => true
  | _ => false

/-- Whether an action is a contract write issued for a `ContractCall`. -/
def isCallAct : EAct → Bool
  | EAct.writeTx _ _ => true
  | _ => false

/-! ## Concrete instances used to evaluate the model -/

/-- A minimal environment: no artifacts on disk, trivial oracles. -/
def env0 : Env :=
  { keccak := fun _ => []
    encodeCtorArgs := fun _ => []
    artifacts := fun _ => none
    execInit := fun _ => []
    fetchChainId := 1
    projectRoot := "." }

/-- A fresh chain: no code anywhere. -/
def chain0 : Chain := { code := fun _ => [] }

/-- A manager that has not been initialized yet. -/
def ms0 : ManagerState := { isInit := false, deployedContracts := [] }

/-- A deployment with every required field missing (falsy). -/
def badDeployment : Deployment := { name := "", args := [], salt := [], deployer := [] }

/-- A config whose single deployment fails field validation. -/
def badConfig : SetupConfig := { deployments := some [badDeployment], calls := none }

/-- An environment with one compiled artifact named `Token`; keccak is a
stand-in hash returning 32 bytes, the EVM executes init code to itself. -/
def envW : Env :=
  { keccak := fun _ => List.replicate 32 7
    encodeCtorArgs := fun _ => []
    artifacts := fun n => if n = "Token" then some { abi := "tokenAbi", bytecode := [1] } else none
    execInit := fun ic => ic
    fetchChainId := 84532
    projectRoot := "." }

/-- The `Token` artifact of `envW`. -/
def artifactW : Artifact := { abi := "tokenAbi", bytecode := [1] }

/-- An initialized manager with an empty registry. -/
def msW : ManagerState := { isInit := true, deployedContracts := [] }

/-- The address `envW` predicts for every deployment (its keccak is
constant): the low 20 bytes of 32 sevens. -/
def addrW : Bytes := List.replicate 20 7

/-- A well-formed deployment of `Token`. -/
def deployW : Deployment :=
  { name := "Token", args := [], salt := List.replicate 32 1, deployer := [2] }

/-- A well-formed call targeting `addrW`. -/
def callW : Call :=
  { target := addrW, functionName := "transfer", args := [], account := [2], value := none }

/-- A batch with two deployments followed by one call. -/
def cfgW : SetupConfig := { deployments := some [deployW, deployW], calls := some [callW] }

/-- A chain that already has code at `addrW`. -/
def chainW : Chain := { code := fun a => if a = addrW then [9] else [] }

/-- A chain that already has the proxy code in place. -/
def chainP : Chain := { code := fun a => if a = PROXY_ADDRESS then [1] else [] }

/-- A host where only ports 1234 and 10005 are free. -/
def availW : Nat → Bool := fun p => p == 1234 || p == 10005

/-- A host with no free port at all. -/
def availNone : Nat → Bool := fun _ => false

/-- A deterministic stand-in for the random draws: attempt `i` draws `i`. -/
def randId : Nat → Nat := fun i => i

/-- Startup attempts that all fail. -/
def failsAll : Nat → Bool := fun _ => true

/-- Startup attempts 0 and 1 fail, attempt 2 succeeds. -/
def failsTwo : Nat → Bool := fun k => decide (k < 2)

/-- A node manager with no provider bound. -/
def stNone : NodeState := { provider := none }

/-! ## Helper lemmas -/

/-- When the proxy code is already present, `ensureProxyDeployed` performs
only the code read and leaves the chain as it is. -/
theorem ensure_deployed_of_code (c : Chain) (h : c.code PROXY_ADDRESS ≠ []) :
    ensureProxyDeployed c = ([EAct.getCode PROXY_ADDRESS], c) := by
  cases hc : c.code PROXY_ADDRESS with
  | nil => exact absurd hc h
  | cons x xs => simp [ensureProxyDeployed, isProxyDeployed, hc]

/-- A second `ensureProxyDeployed` call is a pure read. -/
theorem ensure_stable (c : Chain) :
    ensureProxyDeployed (ensureProxyDeployed c).2 =
      ([EAct.getCode PROXY_ADDRESS], (ensureProxyDeployed c).2) := by
  by_cases h : c.code PROXY_ADDRESS = []
  · have h2 : (ensureProxyDeployed c).2 = applyProxyDeploymentTx c := by
      simp [ensureProxyDeployed, isProxyDeployed, h]
    rw [h2]
    apply ensure_deployed_of_code
    simp [applyProxyDeploymentTx, proxyRuntime]
  · have h2 := ensure_deployed_of_code c h
    rw [h2]
    simpa using h2

/-- The trace of `ensureProxyDeployed` is the code read alone or the code
read followed by the raw transaction and the receipt wait. -/
theorem ensure_trace_shapes (c : Chain) :
    (ensureProxyDeployed c).1 = [EAct.getCode PROXY_ADDRESS] ∨
      (ensureProxyDeployed c).1 =
        [EAct.getCode PROXY_ADDRESS, EAct.sendRawTx, EAct.waitReceipt] := by
  by_cases h : c.code PROXY_ADDRESS = []
  · right; simp [ensureProxyDeployed, isProxyDeployed, h]
  · left; rw [ensure_deployed_of_code c h]

/-! ## Claim theorems -/

/-- C9: a `SetupConfig` with neither a deployments list nor a calls list
fails validation — and hence `setContractState` — with the error
"Setup config must contain at least deployments or calls". -/
theorem c9_empty_config_rejected (env : Env) (ms : ManagerState) (c : Chain) :
    validateConfig { deployments := none, calls := none } =
      Except.error "Setup config must contain at least deployments or calls" ∧
    (setContractState env ms c { deployments := none, calls := none }).2 =
      Except.error "Setup config must contain at least deployments or calls" := by
  refine ⟨rfl, ?_⟩
  cases hms : ms.isInit <;>
    simp [setContractState, hms, initManager, validateConfig]

/-- C7: every state-mutating RPC helper, invoked while no provider is
bound, fails immediately with "Node not started", performing no RPC
round trip. -/
theorem c7_helpers_require_ready (st : NodeState) (h : st.provider = none)
    (address slot value code snapshotId : String) (forkBlock : Option Nat)
    (blocks timestamp seconds balance nonce fee price chainIdArg : Nat)
    (enabled : Bool) :
    snapshot st = ([], Except.error "Node not started") ∧
    revert st snapshotId = ([], Except.error "Node not started") ∧
    reset st forkBlock = ([], Except.error "Node not started") ∧
    mine st blocks = ([], Except.error "Node not started") ∧
    setAutomine st enabled = ([], Except.error "Node not started") ∧
    setNextBlockTimestamp st timestamp = ([], Except.error "Node not started") ∧
    increaseTime st seconds = ([], Except.error "Node not started") ∧
    setTime st timestamp = ([], Except.error "Node not started") ∧
    setBalance st address balance = ([], Except.error "Node not started") ∧
    setNonce st address nonce = ([], Except.error "Node not started") ∧
    setCode st address code = ([], Except.error "Node not started") ∧
    setStorageAt st address slot value = ([], Except.error "Node not started") ∧
    setNextBlockBaseFeePerGas st fee = ([], Except.error "Node not started") ∧
    setMinGasPrice st price = ([], Except.error "Node not started") ∧
    setChainId st chainIdArg = ([], Except.error "Node not started") ∧
    impersonateAccount st address = ([], Except.error "Node not started") ∧
    stopImpersonatingAccount st address = ([], Except.error "Node not started") := by
  refine ⟨?_, ?_, ?_, ?_, ?_, ?_, ?_, ?_, ?_, ?_, ?_, ?_, ?_, ?_, ?_, ?_, ?_⟩ <;>
    simp [snapshot, revert, reset, mine, setAutomine, setNextBlockTimestamp,
      increaseTime, setTime, setBalance, setNonce, setCode, setStorageAt,
      setNextBlockBaseFeePerGas, setMinGasPrice, setChainId,
      impersonateAccount, stopImpersonatingAccount, send, h]

/-- Witness for C7 at a concrete unbound node state. -/
theorem c7_witness :
    snapshot stNone = ([], Except.error "Node not started") ∧
    setBalance stNone "0xabc" 5 = ([], Except.error "Node not started") := by
  have h := c7_helpers_require_ready stNone rfl "0xabc" "" "" "" "" none 1 0 0 5 0 0 0 0 true
  exact ⟨h.1, h.2.2.2.2.2.2.2.2.1⟩

/-- C8: `ensureProxyDeployed` is idempotent — with proxy code present it
is a pure read leaving the chain unchanged and submitting no transaction;
a second call after any first call is such a pure read; and any positive
number of calls produces the chain of a single call. -/
theorem c8_ensure_proxy_idempotent (c : Chain) :
    (c.code PROXY_ADDRESS ≠ [] →
      ensureProxyDeployed c = ([EAct.getCode PROXY_ADDRESS], c)) ∧
    ensureProxyDeployed (ensureProxyDeployed c).2 =
      ([EAct.getCode PROXY_ADDRESS], (ensureProxyDeployed c).2) ∧
    ∀ n c2, iterEnsure (n + 1) c2 = iterEnsure 1 c2 := by
  refine ⟨ensure_deployed_of_code c, ensure_stable c, ?_⟩
  intro n
  induction n with
  | zero => intro c2; rfl
  | succ n ih =>
    intro c2
    have hstep : iterEnsure (n + 1 + 1) c2 = iterEnsure (n + 1) (ensureProxyDeployed c2).2 := rfl
    rw [hstep, ih]
    show iterEnsure 1 (ensureProxyDeployed c2).2 = iterEnsure 1 c2
    have hs := ensure_stable c2
    simp [iterEnsure, hs]

/-- Witness for C8: concrete chains exercising the no-op case and the
iterated case. -/
theorem c8_witness :
    ensureProxyDeployed chainP = ([EAct.getCode PROXY_ADDRESS], chainP) ∧
    iterEnsure 3 chain0 = iterEnsure 1 chain0 := by
  constructor
  · exact (c8_ensure_proxy_idempotent chainP).1 (by simp [chainP])
  · exact (c8_ensure_proxy_idempotent chain0).2.2 2 chain0

/-- C10: a config omitting `chainId` gets the Base Sepolia default 84532
and the spawned process receives the `--chain-id` flag; an omitted
`blockTime` defaults to 0, and a zero `blockTime` emits no `--block-time`
flag at all. -/
theorem c10_config_defaults (config : NodeConfig) (allocatedPort : Option Nat) :
    (config.chainId = none →
      (mkNodeConfig config).chainId = some 84532 ∧
      chainIdArgs (mkNodeConfig config) = ["--chain-id", "84532"] ∧
      "--chain-id" ∈ buildAnvilArgs allocatedPort (mkNodeConfig config)) ∧
    (config.blockTime = none → (mkNodeConfig config).blockTime = some 0) ∧
    ∀ cfg2 : NodeConfig, cfg2.blockTime = some 0 → blockTimeArgs cfg2 = [] := by
  refine ⟨fun h => ?_, fun h => ?_, fun cfg2 h => ?_⟩
  · have h1 : (mkNodeConfig config).chainId = some 84532 := by
      simp [mkNodeConfig, h]
    have h2 : chainIdArgs (mkNodeConfig config) = ["--chain-id", "84532"] := by
      simp [chainIdArgs, truthyNat, h1]
      rfl
    refine ⟨h1, h2, ?_⟩
    simp [buildAnvilArgs, h2]
  · simp [mkNodeConfig, h]
  · simp [blockTimeArgs, truthyNat, h]

/-- Witness for C10 at the all-defaults config. -/
theorem c10_witness :
    (mkNodeConfig {}).chainId = some 84532 ∧
    chainIdArgs (mkNodeConfig {}) = ["--chain-id", "84532"] ∧
    "--chain-id" ∈ buildAnvilArgs (some 8545) (mkNodeConfig {}) ∧
    (mkNodeConfig {}).blockTime = some 0 ∧
    blockTimeArgs (mkNodeConfig {}) = [] := by
  have h := c10_config_defaults {} (some 8545)
  exact ⟨(h.1 rfl).1, (h.1 rfl).2.1, (h.1 rfl).2.2, h.2.1 rfl,
    h.2.2 (mkNodeConfig {}) (h.2.1 rfl)⟩


/-- Evaluation of `deployContract` on the skip path: code already present
at the predicted address. -/
theorem deployContract_skip (env : Env) (ms : ManagerState) (c : Chain)
    (d : Deployment) (a : Artifact)
    (hInit : ms.isInit = true) (hArt : env.artifacts d.name = some a)
    (hc : c.code (predictContractAddress env d.salt a.bytecode d.args) ≠ []) :
    deployContract env ms c d =
      ([EAct.getCode (predictContractAddress env d.salt a.bytecode d.args)],
       Except.ok (predictContractAddress env d.salt a.bytecode d.args,
         { ms with deployedContracts := mapSet ms.deployedContracts (predictContractAddress env d.salt a.bytecode d.args) a.abi },
         c)) := by
  simp [deployContract, hInit, loadArtifact, hArt, hc]

/-- Evaluation of `deployContract` on the fresh path: no code at the
predicted address, so the CREATE2 transaction is sent to the proxy. -/
theorem deployContract_fresh (env : Env) (ms : ManagerState) (c : Chain)
    (d : Deployment) (a : Artifact)
    (hInit : ms.isInit = true) (hArt : env.artifacts d.name = some a)
    (hc : c.code (predictContractAddress env d.salt a.bytecode d.args) = []) :
    deployContract env ms c d =
      ([EAct.getCode (predictContractAddress env d.salt a.bytecode d.args),
        EAct.sendTx PROXY_ADDRESS (d.salt ++ encodeDeployData env a.bytecode d.args),
        EAct.waitReceipt],
       Except.ok (predictContractAddress env d.salt a.bytecode d.args,
         { ms with deployedContracts := mapSet ms.deployedContracts (predictContractAddress env d.salt a.bytecode d.args) a.abi },
         applyCreate2Tx env c d.salt (encodeDeployData env a.bytecode d.args))) := by
  simp [deployContract, hInit, loadArtifact, hArt, hc]

/-- C1: a successful `deployContract` returns the CREATE2 address — the
low 20 bytes of the hash of the `0xff` marker, the proxy address, the
salt and the hash of `initCode = bytecode ++ abiEncodedConstructorArgs` —
a pure function of those inputs: the manager state `ms` and the chain
state `c` are arbitrary binders and absent from the returned address
expression. -/
theorem c1_predicted_address_pure (env : Env) (ms : ManagerState) (c : Chain)
    (d : Deployment) (a : Artifact)
    (hInit : ms.isInit = true) (hArt : env.artifacts d.name = some a) :
    ∃ tr ms' c', deployContract env ms c d =
      (tr, Except.ok (getContractAddress env PROXY_ADDRESS d.salt
        (a.bytecode ++ env.encodeCtorArgs d.args), ms', c')) := by
  by_cases hc : c.code (predictContractAddress env d.salt a.bytecode d.args) = []
  · exact ⟨_, _, _, deployContract_fresh env ms c d a hInit hArt hc⟩
  · exact ⟨_, _, _, deployContract_skip env ms c d a hInit hArt hc⟩

/-- Witness for C1 on concrete inputs. -/
theorem c1_witness :
    ∃ tr ms' c', deployContract envW msW chain0 deployW =
      (tr, Except.ok (getContractAddress envW PROXY_ADDRESS deployW.salt
        ([1] ++ envW.encodeCtorArgs deployW.args), ms', c')) :=
  c1_predicted_address_pure envW msW chain0 deployW artifactW rfl rfl

/-- C2: when code already exists at the predicted address,
`deployContract` returns it after the single code read — no transaction —
and still records the ABI in the registry; and two successive calls with
the same deployment return the same address, the second performing only
the code read and sending no transaction. -/
theorem c2_deploy_idempotent (env : Env) (ms : ManagerState) (c : Chain)
    (d : Deployment) (a : Artifact)
    (hInit : ms.isInit = true) (hArt : env.artifacts d.name = some a) :
    (c.code (predictContractAddress env d.salt a.bytecode d.args) ≠ [] →
      deployContract env ms c d =
        ([EAct.getCode (predictContractAddress env d.salt a.bytecode d.args)],
         Except.ok (predictContractAddress env d.salt a.bytecode d.args,
           { ms with deployedContracts := mapSet ms.deployedContracts (predictContractAddress env d.salt a.bytecode d.args) a.abi },
           c))) ∧
    (env.execInit (encodeDeployData env a.bytecode d.args) ≠ [] →
      ∃ tr1 addr ms1 c1,
        deployContract env ms c d = (tr1, Except.ok (addr, ms1, c1)) ∧
        deployContract env ms1 c1 d =
          ([EAct.getCode addr],
           Except.ok (addr,
             { ms1 with deployedContracts := mapSet ms1.deployedContracts addr a.abi },
             c1))) := by
  constructor
  · intro hc
    exact deployContract_skip env ms c d a hInit hArt hc
  · intro hrun
    by_cases hc : c.code (predictContractAddress env d.salt a.bytecode d.args) = []
    · have hcode : (applyCreate2Tx env c d.salt (encodeDeployData env a.bytecode d.args)).code (predictContractAddress env d.salt a.bytecode d.args) ≠ [] := by
        simpa [applyCreate2Tx, predictContractAddress] using hrun
      exact ⟨_, _, _, _, deployContract_fresh env ms c d a hInit hArt hc,
        deployContract_skip env
          { ms with deployedContracts := mapSet ms.deployedContracts (predictContractAddress env d.salt a.bytecode d.args) a.abi }
          (applyCreate2Tx env c d.salt (encodeDeployData env a.bytecode d.args))
          d a hInit hArt hcode⟩
    · exact ⟨_, _, _, _, deployContract_skip env ms c d a hInit hArt hc,
        deployContract_skip env
          { ms with deployedContracts := mapSet ms.deployedContracts (predictContractAddress env d.salt a.bytecode d.args) a.abi }
          c d a hInit hArt hc⟩

/-- Witness for C2: a chain with code already at the predicted address
(skip path) and a fresh chain (deploy-then-skip path). -/
theorem c2_witness :
    deployContract envW msW chainW deployW =
      ([EAct.getCode addrW],
       Except.ok (addrW,
         { msW with deployedContracts := mapSet msW.deployedContracts addrW "tokenAbi" },
         chainW)) ∧
    (∃ tr1 addr ms1 c1,
      deployContract envW msW chain0 deployW = (tr1, Except.ok (addr, ms1, c1)) ∧
      deployContract envW ms1 c1 deployW =
        ([EAct.getCode addr],
         Except.ok (addr,
           { ms1 with deployedContracts := mapSet ms1.deployedContracts addr "tokenAbi" },
           c1))) := by
  constructor
  · exact (c2_deploy_idempotent envW msW chainW deployW artifactW rfl rfl).1 (by decide)
  · exact (c2_deploy_idempotent envW msW chain0 deployW artifactW rfl rfl).2 (by decide)

/-- C3 counterexample: with an uninitialized manager, `setContractState`
on a config whose deployment is missing name, salt and deployer does fail
with the validation error — but only after initialization has issued the
`eth_chainId` RPC request, the proxy code read, and even the proxy
deployment raw transaction, contradicting "before any network call is
made (no RPC request, proxy deployment, or transaction is issued before
validation completes)". -/
theorem c3_counterexample :
    (setContractState env0 ms0 chain0 badConfig).2 =
      Except.error "Each deployment must have name, salt, and deployer" ∧
    (setContractState env0 ms0 chain0 badConfig).1 =
      [EAct.rpc "eth_chainId", EAct.getCode PROXY_ADDRESS,
       EAct.sendRawTx, EAct.waitReceipt] ∧
    (setContractState env0 ms0 chain0 badConfig).1 ≠ [] :=
  ⟨rfl, rfl, by decide⟩

/-- C3 as amended: an invalid deployment (resp. call) makes
`validateConfig` fail with the descriptive message; `setContractState`
then fails with exactly that message having issued no deployment
transaction and no contract call — and, when the manager was already
initialized, no network action at all. (When it was not initialized,
initialization — RPC requests and possibly the proxy deployment — runs
before validation.) -/
theorem c3_validation_fails_fast (env : Env) (ms : ManagerState) (c : Chain)
    (config : SetupConfig) :
    ((config.deployments.getD []).any deploymentInvalid = true →
      validateConfig config =
        Except.error "Each deployment must have name, salt, and deployer") ∧
    ((config.calls.getD []).any callInvalid = true →
      (config.deployments.getD []).any deploymentInvalid = false →
      validateConfig config =
        Except.error "Each call must have target, functionName, and account") ∧
    (∀ e, validateConfig config = Except.error e →
      (setContractState env ms c config).2 = Except.error e ∧
      (ms.isInit = true → (setContractState env ms c config).1 = []) ∧
      ∀ act ∈ (setContractState env ms c config).1, isBatchTx act = false) := by
  refine ⟨fun hd => ?_, fun hcl hdv => ?_, fun e hv => ?_⟩
  · have hne : ¬(config.deployments = none ∧ config.calls = none) := by
      rintro ⟨h1, _⟩
      rw [h1] at hd
      simp at hd
    rw [validateConfig, if_neg hne, if_pos hd]
  · have hne : ¬(config.deployments = none ∧ config.calls = none) := by
      rintro ⟨_, h2⟩
      rw [h2] at hcl
      simp at hcl
    rw [validateConfig, if_neg hne, if_neg (by simp [hdv]), if_pos hcl]
  · cases hms : ms.isInit
    · refine ⟨?_, by simp, ?_⟩
      · simp [setContractState, hms, initManager, hv]
      · intro act hact
        simp [setContractState, hms, initManager, hv] at hact
        rcases hact with h | h
        · simp [h, isBatchTx]
        · rcases ensure_trace_shapes c with hs | hs
          · rw [hs] at h
            simp at h
            simp [h, isBatchTx]
          · rw [hs] at h
            simp at h
            rcases h with h | h | h <;> simp [h, isBatchTx]
    · refine ⟨?_, fun _ => ?_, ?_⟩
      · simp [setContractState, hms, hv]
      · simp [setContractState, hms, hv]
      · intro act hact
        simp [setContractState, hms, hv] at hact

/-- Witness for C3 (amended): concrete invalid configs through both an
initialized and an uninitialized manager. -/
theorem c3_witness :
    validateConfig badConfig =
      Except.error "Each deployment must have name, salt, and deployer" ∧
    (setContractState env0 msW chain0 badConfig).2 =
      Except.error "Each deployment must have name, salt, and deployer" ∧
    (setContractState env0 msW chain0 badConfig).1 = [] := by
  have h := c3_validation_fails_fast env0 msW chain0 badConfig
  have hval := h.1 (by decide)
  have hmain := h.2.2 "Each deployment must have name, salt, and deployer" hval
  exact ⟨hval, hmain.1, hmain.2.1 rfl⟩

/-- A successful calls phase emits exactly one contract write per call,
in input order. -/
theorem runCalls_trace (env : Env) (ms : ManagerState) :
    ∀ cls : List Call, (runCalls env ms cls).2 = Except.ok () →
      (runCalls env ms cls).1 =
        cls.map (fun cl => EAct.writeTx cl.target cl.functionName) := by
  intro cls
  induction cls with
  | nil => intro _; rfl
  | cons cl cls ih =>
    intro h
    rcases hstep : (executeCall env ms cl).2 with e | u
    · rw [runCalls] at h
      simp [hstep] at h
    · have htr : (executeCall env ms cl).1 = [EAct.writeTx cl.target cl.functionName] := by
        rw [executeCall] at hstep ⊢
        by_cases hi : ms.isInit
        · simp [hi] at hstep ⊢
          rcases hg : mapGet ms.deployedContracts cl.target with _ | ab
          · simp [hg] at hstep
          · simp [hg]
        · simp [hi] at hstep
      have h2 : (runCalls env ms cls).2 = Except.ok () := by
        rw [runCalls] at h
        simpa [hstep] using h
      rw [runCalls]
      simp [hstep, htr, ih h2]

/-- No action of a single `deployContract` is a contract write. -/
theorem deployContract_no_call (env : Env) (ms : ManagerState) (c : Chain)
    (d : Deployment) :
    ∀ act ∈ (deployContract env ms c d).1, isCallAct act = false := by
  intro act hact
  rw [deployContract] at hact
  by_cases hi : ms.isInit
  · simp [hi] at hact
    rcases hl : loadArtifact env d.name with e | a
    · rw [hl] at hact
      simp at hact
    · rw [hl] at hact
      by_cases hc : c.code (predictContractAddress env d.salt a.bytecode d.args) = []
      · simp [hc] at hact
        rcases hact with h | h | h <;> simp [h, isCallAct]
      · simp [hc] at hact
        simp [hact, isCallAct]
  · simp [hi] at hact

/-- No action of the deployments phase is a contract write. -/
theorem runDeployments_no_call (env : Env) :
    ∀ (ds : List Deployment) (ms : ManagerState) (c : Chain),
      ∀ act ∈ (runDeployments env ms c ds).1, isCallAct act = false := by
  intro ds
  induction ds with
  | nil => intro ms c act hact; simp [runDeployments] at hact
  | cons d ds ih =>
    intro ms c act hact
    rcases hstep : (deployContract env ms c d).2 with e | r
    · rw [runDeployments] at hact
      simp [hstep] at hact
      exact deployContract_no_call env ms c d act hact
    · rcases r with ⟨addr, ms', c'⟩
      rw [runDeployments] at hact
      simp [hstep] at hact
      rcases hact with h | h
      · exact deployContract_no_call env ms c d act h
      · exact ih ms' c' act h

/-- C4: on an initialized manager, a successful `setContractState` trace
is the deployments-phase trace (which contains no contract write; the
phase folds over the deployment list in input order, each step awaited
before the next) followed by exactly the calls' contract writes in input
order — so no call is ever issued before every deployment of the batch
has completed. -/
theorem c4_deployments_before_calls (env : Env) (ms : ManagerState)
    (c : Chain) (config : SetupConfig) (hInit : ms.isInit = true)
    (hok : ∃ r, (setContractState env ms c config).2 = Except.ok r) :
    (setContractState env ms c config).1 =
      (runDeployments env ms c (config.deployments.getD [])).1 ++
        (config.calls.getD []).map (fun cl => EAct.writeTx cl.target cl.functionName) ∧
    ∀ act ∈ (runDeployments env ms c (config.deployments.getD [])).1,
      isCallAct act = false := by
  obtain ⟨r, hr⟩ := hok
  refine ⟨?_, runDeployments_no_call env (config.deployments.getD []) ms c⟩
  rcases hval : validateConfig config with e | u
  · rw [setContractState] at hr
    simp [hInit, hval] at hr
  · rcases hds : (runDeployments env ms c (config.deployments.getD [])).2 with e | r2
    · rw [setContractState] at hr
      simp [hInit, hval, hds] at hr
    · rcases r2 with ⟨ms2, c2⟩
      rcases hcs : (runCalls env ms2 (config.calls.getD [])).2 with e | u2
      · rw [setContractState] at hr
        simp [hInit, hval, hds, hcs] at hr
      · have hmap := runCalls_trace env ms2 (config.calls.getD []) (by rw [hcs])
        rw [setContractState]
        simp [hInit, hval, hds, hcs, hmap]

/-- Witness for C4: a concrete successful batch of two deployments and
one call. -/
theorem c4_witness :
    (setContractState envW msW chain0 cfgW).1 =
      (runDeployments envW msW chain0 [deployW, deployW]).1 ++
        [EAct.writeTx addrW "transfer"] ∧
    ∀ act ∈ (runDeployments envW msW chain0 [deployW, deployW]).1,
      isCallAct act = false :=
  c4_deployments_before_calls envW msW chain0 cfgW rfl ⟨_, rfl⟩

/-- The random-probing loop exhausts exactly when every candidate in its
budget is unavailable. -/
theorem randomSearch_none_iff (avail : Nat → Bool) (rand : Nat → Nat)
    (minPort : Nat) :
    ∀ fuel a, randomSearch avail rand minPort a fuel = none ↔
      ∀ i, i < fuel → avail (minPort + rand (a + i)) = false := by
  intro fuel
  induction fuel with
  | zero =>
    intro a
    constructor
    · intro _ i hi
      exact absurd hi (Nat.not_lt_zero i)
    · intro _
      rfl
  | succ f ih =>
    intro a
    constructor
    · intro h i hi
      rcases hv : avail (minPort + rand a) with _ | _
      · have h' : randomSearch avail rand minPort (a + 1) f = none := by
          rw [randomSearch] at h
          simpa [hv] using h
        cases i with
        | zero => simpa using hv
        | succ j =>
          have hj := (ih (a + 1)).mp h' j (by omega)
          have e : a + 1 + j = a + (j + 1) := by omega
          rwa [e] at hj
      · exfalso
        rw [randomSearch] at h
        simp [hv] at h
    · intro h
      have ha : avail (minPort + rand a) = false := by simpa using h 0 (by omega)
      rw [randomSearch]
      simp [ha]
      exact (ih (a + 1)).mpr fun j hj => by
        have hz := h (j + 1) (by omega)
        have e : a + (j + 1) = a + 1 + j := by omega
        rwa [e] at hz

/-- The random-probing loop returns the first available candidate. -/
theorem randomSearch_first (avail : Nat → Bool) (rand : Nat → Nat)
    (minPort : Nat) :
    ∀ fuel a i, i < fuel →
      (∀ j, j < i → avail (minPort + rand (a + j)) = false) →
      avail (minPort + rand (a + i)) = true →
      randomSearch avail rand minPort a fuel = some (minPort + rand (a + i)) := by
  intro fuel
  induction fuel with
  | zero =>
    intro a i hi
    exact absurd hi (Nat.not_lt_zero i)
  | succ f ih =>
    intro a i hi hj hav
    cases i with
    | zero =>
      have hav' : avail (minPort + rand a) = true := by simpa using hav
      rw [randomSearch]
      simp [hav']
    | succ k =>
      have h0 : avail (minPort + rand a) = false := by simpa using hj 0 (by omega)
      rw [randomSearch]
      simp [h0]
      have hrec := ih (a + 1) k (by omega)
        (fun j hjk => by
          have hz := hj (j + 1) (by omega)
          have e : a + (j + 1) = a + 1 + j := by omega
          rwa [e] at hz)
        (by
          have e : a + (k + 1) = a + 1 + k := by omega
          rwa [e] at hav)
      have e2 : a + 1 + k = a + (k + 1) := by omega
      rwa [e2] at hrec

/-- Any port the random-probing loop returns is available. -/
theorem randomSearch_ok (avail : Nat → Bool) (rand : Nat → Nat)
    (minPort : Nat) :
    ∀ fuel a p, randomSearch avail rand minPort a fuel = some p →
      avail p = true := by
  intro fuel
  induction fuel with
  | zero =>
    intro a p h
    exact absurd h (by simp [randomSearch])
  | succ f ih =>
    intro a p h
    rcases hv : avail (minPort + rand a) with _ | _
    · rw [randomSearch] at h
      simp [hv] at h
      exact ih (a + 1) p h
    · rw [randomSearch] at h
      simp [hv] at h
      rw [← h]
      exact hv

/-- C5: `findAvailablePort` returns a truthy requested port that probes
available; any port it returns probed available; it returns the first
available of the 20 random candidates when the requested port is absent
or unavailable; and it fails — with the "no available ports" error naming
the range and the 20-attempt budget — exactly when the requested port is
absent or unavailable and all 20 candidates are unavailable. -/
theorem c5_find_available_port (avail : Nat → Bool) (rand : Nat → Nat)
    (config : NodeConfig) :
    (∀ p, truthyNat config.port = some p → avail p = true →
      findAvailablePort avail rand config = Except.ok p) ∧
    (∀ q, findAvailablePort avail rand config = Except.ok q → avail q = true) ∧
    (∀ i, i < 20 →
      (∀ p, truthyNat config.port = some p → avail p = false) →
      (∀ j, j < i → avail ((config.portRange.getD (10000, 20000)).1 + rand j) = false) →
      avail ((config.portRange.getD (10000, 20000)).1 + rand i) = true →
      findAvailablePort avail rand config =
        Except.ok ((config.portRange.getD (10000, 20000)).1 + rand i)) ∧
    (findAvailablePort avail rand config =
        Except.error ("No available ports found in range " ++
          toString (config.portRange.getD (10000, 20000)).1 ++ "-" ++
          toString (config.portRange.getD (10000, 20000)).2 ++ " after 20 attempts") ↔
      (∀ p, truthyNat config.port = some p → avail p = false) ∧
      ∀ i, i < 20 → avail ((config.portRange.getD (10000, 20000)).1 + rand i) = false) := by
  refine ⟨?_, ?_, ?_, ?_⟩
  · intro p hp hav
    rw [findAvailablePort, hp]
    simp [hav]
  · intro q h
    rcases hreq : truthyNat config.port with _ | p
    · rw [findAvailablePort, hreq] at h
      rw [fallbackSearch] at h
      rcases hr : randomSearch avail rand (config.portRange.getD (10000, 20000)).1 0 20 with _ | r
      · rw [hr] at h
        simp at h
      · rw [hr] at h
        simp at h
        rw [← h]
        exact randomSearch_ok avail rand _ 20 0 r hr
    · rcases hav : avail p with _ | _
      · rw [findAvailablePort, hreq] at h
        simp [hav] at h
        rw [fallbackSearch] at h
        rcases hr : randomSearch avail rand (config.portRange.getD (10000, 20000)).1 0 20 with _ | r
        · rw [hr] at h
          simp at h
        · rw [hr] at h
          simp at h
          rw [← h]
          exact randomSearch_ok avail rand _ 20 0 r hr
      · rw [findAvailablePort, hreq] at h
        simp [hav] at h
        rw [← h]
        exact hav
  · intro i hi hreqf hbefore hav
    have hfb : fallbackSearch avail rand (config.portRange.getD (10000, 20000)).1
        (config.portRange.getD (10000, 20000)).2 =
        Except.ok ((config.portRange.getD (10000, 20000)).1 + rand i) := by
      rw [fallbackSearch,
        randomSearch_first avail rand (config.portRange.getD (10000, 20000)).1
          20 0 i hi (fun j hj => by simpa using hbefore j hj) (by simpa using hav)]
      simp
    rcases hreq : truthyNat config.port with _ | p
    · rw [findAvailablePort, hreq]
      exact hfb
    · rw [findAvailablePort, hreq]
      simp [hreqf p hreq]
      exact hfb
  · constructor
    · intro h
      rcases hreq : truthyNat config.port with _ | p
      · rw [findAvailablePort, hreq, fallbackSearch] at h
        rcases hr : randomSearch avail rand (config.portRange.getD (10000, 20000)).1 0 20 with _ | r
        · constructor
          · intro p hp
            simp at hp
          · intro i hi
            have := (randomSearch_none_iff avail rand _ 20 0).mp hr i hi
            simpa using this
        · rw [hr] at h
          simp at h
      · rcases hav : avail p with _ | _
        · rw [findAvailablePort, hreq] at h
          simp [hav] at h
          rw [fallbackSearch] at h
          rcases hr : randomSearch avail rand (config.portRange.getD (10000, 20000)).1 0 20 with _ | r
          · constructor
            · intro p2 hp2
              injection hp2 with hpp
              rw [← hpp]
              exact hav
            · intro i hi
              have := (randomSearch_none_iff avail rand _ 20 0).mp hr i hi
              simpa using this
          · rw [hr] at h
            simp at h
        · rw [findAvailablePort, hreq] at h
          simp [hav] at h
    · rintro ⟨hreqf, hall⟩
      have hnone : randomSearch avail rand (config.portRange.getD (10000, 20000)).1 0 20 = none :=
        (randomSearch_none_iff avail rand _ 20 0).mpr fun i hi => by
          simpa using hall i hi
      rcases hreq : truthyNat config.port with _ | p
      · rw [findAvailablePort, hreq, fallbackSearch, hnone]
      · rw [findAvailablePort, hreq]
        simp [hreqf p hreq]
        rw [fallbackSearch, hnone]

/-- Witness for C5: a requested free port is returned; a host with no
free port yields the terminal error. -/
theorem c5_witness :
    findAvailablePort availW randId { port := some 1234 } = Except.ok 1234 ∧
    findAvailablePort availNone randId {} =
      Except.error "No available ports found in range 10000-20000 after 20 attempts" := by
  constructor
  · exact (c5_find_available_port availW randId { port := some 1234 }).1 1234 rfl rfl
  · exact (c5_find_available_port availNone randId {}).2.2.2.mpr
      ⟨fun p hp => by simp [truthyNat] at hp, fun i _ => rfl⟩

/-- C6 counterexample: when every attempt fails, `start` does fail
terminally naming the 5-attempt count, but the four inter-attempt delays
are all exactly 1000 ms — a constant, not an escalating, delay. -/
theorem c6_counterexample :
    (start failsAll false).2 =
      Except.error "Failed to start Anvil node after 5 attempts" ∧
    delaysOf (start failsAll false).1 = [1000, 1000, 1000, 1000] ∧
    ¬ List.Chain' (fun a b => a < b) (delaysOf (start failsAll false).1) := by
  refine ⟨rfl, rfl, ?_⟩
  intro hch
  rw [show delaysOf (start failsAll false).1 = [1000, 1000, 1000, 1000] from rfl] at hch
  simp [List.chain'_cons] at hch

/-- C6 as amended: `start` fails at once when the process handle already
exists; when all 5 attempts fail it surfaces the terminal error naming
the attempt count, having slept a fixed 1000 ms (not an escalating delay)
between consecutive attempts; and when attempt `k < 5` is the first to
succeed it returns success after attempts `0..k` with `k` fixed 1000 ms
sleeps between them. -/
theorem c6_start_bounded_retries (fails : Nat → Bool) :
    (start fails true).2 = Except.error "Node is already running" ∧
    ((∀ k, k < 5 → fails k = true) →
      (start fails false).2 =
        Except.error "Failed to start Anvil node after 5 attempts" ∧
      delaysOf (start fails false).1 = List.replicate 4 1000 ∧
      attemptsOf (start fails false).1 = [0, 1, 2, 3, 4]) ∧
    (∀ k, k < 5 → (∀ j, j < k → fails j = true) → fails k = false →
      (start fails false).2 = Except.ok () ∧
      attemptsOf (start fails false).1 = List.range (k + 1) ∧
      delaysOf (start fails false).1 = List.replicate k 1000) := by
  refine ⟨rfl, ?_, ?_⟩
  · intro h
    have h0 := h 0 (by omega)
    have h1 := h 1 (by omega)
    have h2 := h 2 (by omega)
    have h3 := h 3 (by omega)
    have h4 := h 4 (by omega)
    have hrun : startLoop fails 0 5 =
        ([StartAction.attempt 0, StartAction.delay 1000, StartAction.attempt 1,
          StartAction.delay 1000, StartAction.attempt 2, StartAction.delay 1000,
          StartAction.attempt 3, StartAction.delay 1000, StartAction.attempt 4],
         false) := by
      simp [startLoop, h0, h1, h2, h3, h4]
    refine ⟨?_, ?_, ?_⟩ <;> simp [start, hrun, delaysOf, attemptsOf]
  · intro k hk hj hkf
    interval_cases k
    · have hrun : startLoop fails 0 5 = ([StartAction.attempt 0], true) := by
        simp [startLoop, hkf]
      refine ⟨?_, ?_, ?_⟩ <;> simp [start, hrun, delaysOf, attemptsOf, List.range_succ]
    · have h0 := hj 0 (by omega)
      have hrun : startLoop fails 0 5 =
          ([StartAction.attempt 0, StartAction.delay 1000, StartAction.attempt 1],
           true) := by
        simp [startLoop, h0, hkf]
      refine ⟨?_, ?_, ?_⟩ <;>
        simp [start, hrun, delaysOf, attemptsOf, List.range_succ]
    · have h0 := hj 0 (by omega)
      have h1 := hj 1 (by omega)
      have hrun : startLoop fails 0 5 =
          ([StartAction.attempt 0, StartAction.delay 1000, StartAction.attempt 1,
            StartAction.delay 1000, StartAction.attempt 2], true) := by
        simp [startLoop, h0, h1, hkf]
      refine ⟨?_, ?_, ?_⟩ <;>
        simp [start, hrun, delaysOf, attemptsOf, List.range_succ]
    · have h0 := hj 0 (by omega)
      have h1 := hj 1 (by omega)
      have h2 := hj 2 (by omega)
      have hrun : startLoop fails 0 5 =
          ([StartAction.attempt 0, StartAction.delay 1000, StartAction.attempt 1,
            StartAction.delay 1000, StartAction.attempt 2, StartAction.delay 1000,
            StartAction.attempt 3], true) := by
        simp [startLoop, h0, h1, h2, hkf]
      refine ⟨?_, ?_, ?_⟩ <;>
        simp [start, hrun, delaysOf, attemptsOf, List.range_succ]
    · have h0 := hj 0 (by omega)
      have h1 := hj 1 (by omega)
      have h2 := hj 2 (by omega)
      have h3 := hj 3 (by omega)
      have hrun : startLoop fails 0 5 =
          ([StartAction.attempt 0, StartAction.delay 1000, StartAction.attempt 1,
            StartAction.delay 1000, StartAction.attempt 2, StartAction.delay 1000,
            StartAction.attempt 3, StartAction.delay 1000, StartAction.attempt 4],
           true) := by
        simp [startLoop, h0, h1, h2, h3, hkf]
      refine ⟨?_, ?_, ?_⟩ <;>
        simp [start, hrun, delaysOf, attemptsOf, List.range_succ]

/-- Witness for C6 (amended): all attempts failing, and the third attempt
succeeding. -/
theorem c6_witness :
    (start failsAll true).2 = Except.error "Node is already running" ∧
    ((start failsAll false).2 =
        Except.error "Failed to start Anvil node after 5 attempts" ∧
      delaysOf (start failsAll false).1 = List.replicate 4 1000 ∧
      attemptsOf (start failsAll false).1 = [0, 1, 2, 3, 4]) ∧
    ((start failsTwo false).2 = Except.ok () ∧
      attemptsOf (start failsTwo false).1 = List.range 3 ∧
      delaysOf (start failsTwo false).1 = List.replicate 2 1000) := by
  refine ⟨(c6_start_bounded_retries failsAll).1, ?_, ?_⟩
  · exact (c6_start_bounded_retries failsAll).2.1 fun k _ => rfl
  · exact (c6_start_bounded_retries failsTwo).2.2 2 (by omega)
      (fun j hj => by simp [failsTwo]; omega) (by decide)

end OTK
